import Mathlib

/-!
Verification of `src/app/vo_reader.py`: the VO-summary normalization and
expansion engine.  Python data (YAML-parsed trees) is embedded as the
inductive `Value` type; Python dicts become insertion-ordered association
lists (`ODict`).  Fallible code (key lookups, type errors) returns
`Except String`.  The in-place mutation that `expand_oasis_managers`
performs on the records nested inside its argument is made explicit: the
function also returns the caller-visible post-state of its input mapping,
and `_expand_vo` / `get_tree` thread that post-state through.
-/

set_option autoImplicit false

/-- A Python/YAML value: `None`, booleans, integers, strings, lists, and
insertion-ordered dicts (association lists keyed by strings). -/
inductive Value where
  | null : Value
  | bool : Bool → Value
  | int : Int → Value
  | str : String → Value
  | list : List Value → Value
  | obj : List (String × Value) → Value
mutual
/-- Structural equality test on values (Python `==` on YAML-shaped data). -/
def Value.beq : Value → Value → Bool
  | .null, .null => true
  | .bool a, .bool b => a == b
  | .int a, .int b => a == b
  | .str a, .str b => a == b
  | .list xs, .list ys => beqValues xs ys
  | .obj xs, .obj ys => beqFields xs ys
  | _, _ => false

/-- Elementwise equality of value lists. -/
def beqValues : List Value → List Value → Bool
  | [], [] => true
  | x :: xs, y :: ys => Value.beq x y && beqValues xs ys
  | _, _ => false

/-- Elementwise equality of dict entry lists. -/
def beqFields : List (String × Value) → List (String × Value) → Bool
  | [], [] => true
  | (k1, v1) :: xs, (k2, v2) :: ys => k1 == k2 && Value.beq v1 v2 && beqFields xs ys
  | _, _ => false
end

/-- An insertion-ordered dict, as stored inside `Value.obj`. -/
abbrev ODict := List (String × Value)

/-- Dict lookup: the value at the first matching key, `d[k]` / `d.get(k)`. -/
def odGet : ODict → String → Option Value
  | [], _ => none
  | p :: rest, k => if p.1 = k then some p.2 else odGet rest k

/-- Dict assignment `d[k] = v`: replaces the value in place if the key is
present (keeping its position), appends the pair otherwise. -/
def odSet (k : String) (v : Value) : ODict → ODict
  | [] => [(k, v)]
  | p :: rest => if p.1 = k then (k, v) :: rest else p :: odSet k v rest

/-- Dict removal `d.pop(k, None)`. -/
def odPop (k : String) : ODict → ODict
  | [] => []
  | p :: rest => if p.1 = k then odPop k rest else p :: odPop k rest

/-- Python truthiness: `None`, `False`, `0`, and empty strings/lists/dicts
are falsy. -/
def isFalsy : Value → Bool
  | .null => true
  | .bool b => !b
  | .int n => n == 0
  | .str s => s.isEmpty
  | .list xs => xs.isEmpty
  | .obj fs => fs.isEmpty

/-- Modelled from the spec: `is_null` from `app.common` (not under `src/`),
the NullPredicate of spec section 4.1.  True iff the key is absent from the
container, or present with a `None`/empty/falsy value. -/
def is_null (d : ODict) (k : String) : Bool :=
  match odGet d k with
  | none => true
  | some v => isFalsy v

/-- Python string-list membership `name in refs` where `name` is a string:
true iff some element of the list equals the string (a Python string never
equals a non-string). -/
def containsStr (refs : List Value) (s : String) : Bool :=
  refs.any (fun r => match r with | .str t => t == s | _ => false)

/-- Modelled from the spec: the field-picking loop of `expand_attr_list`
from `app.common` (not under `src/`), spec section 4.2.  Each field of
`ordering` is taken from the record; a missing field is skipped when
`ignore_missing` is true and otherwise fails loudly, naming the offending
record. -/
def pickFields (fields : ODict) (ordering : List String) (ignore_missing : Bool) (name : String) : Except String ODict :=
  match ordering with
  | [] => .ok []
  | k :: ks =>
    match odGet fields k with
    | some v =>
      match pickFields fields ks ignore_missing name with
      | .error e => .error e
      | .ok rest => .ok ((k, v) :: rest)
    | none =>
      if ignore_missing then pickFields fields ks ignore_missing name
      else .error ("expand_attr_list: missing key " ++ k ++ " in record " ++ name)

/-- Modelled from the spec: `expand_attr_list` from `app.common` (not under
`src/`), spec section 4.2.  Turns a name-keyed mapping of records into a
list of records in the input's iteration order, each with `name_field` set
to its key and its fields re-ordered to `ordering` (Python default
`ignore_missing=False`). -/
def expand_attr_list (records : ODict) (name_field : String) (ordering : List String) (ignore_missing : Bool) : Except String (List Value) :=
  match records with
  | [] => .ok []
  | (name, r) :: rest =>
    match r with
    | .obj fields =>
      match pickFields (odSet name_field (.str name) fields) ordering ignore_missing name with
      | .error e => .error e
      | .ok outFields =>
        match expand_attr_list rest name_field ordering ignore_missing with
        | .error e => .error e
        | .ok others => .ok (.obj outFields :: others)
    | _ => .error ("expand_attr_list: record is not a mapping: " ++ name)

/-- The `Contacts` reshaping inside `expand_reportinggroups`
(`vo_reader.py` lines 32-36): a list of names becomes
`\x7b"Contact": [\x7b"Name": n\x7d, ...]\x7d`, a null/absent field becomes `None`. -/
def expandRGContacts (data : ODict) : Except String Value :=
  if is_null data "Contacts" then .ok Value.null
  else match odGet data "Contacts" with
    | some (.list xs) => .ok (.obj [("Contact", .list (xs.map (fun x => Value.obj [("Name", x)])))])
    | _ => .error "TypeError: Contacts is not a list"

/-- One FQAN record (`vo_reader.py` line 40): an ordered dict of the
`GroupName` and `Role` fields of the source entry, raising on a missing
key or a non-mapping entry. -/
def fqanRecords : List Value → Except String (List Value)
  | [] => .ok []
  | f :: fs =>
    match f with
    | .obj o =>
      match odGet o "GroupName", odGet o "Role" with
      | some g, some r =>
        match fqanRecords fs with
        | .error e => .error e
        | .ok rest => .ok (.obj [("GroupName", g), ("Role", r)] :: rest)
      | _, _ => .error "KeyError: GroupName or Role"
    | _ => .error "TypeError: FQAN entry is not a mapping"

/-- The `FQANs` reshaping inside `expand_reportinggroups`
(`vo_reader.py` lines 37-43). -/
def expandRGFQANs (data : ODict) : Except String Value :=
  if is_null data "FQANs" then .ok Value.null
  else match odGet data "FQANs" with
    | some (.list fs) =>
      match fqanRecords fs with
      | .error e => .error e
      | .ok rs => .ok (.obj [("FQAN", .list rs)])
    | _ => .error "TypeError: FQANs is not a list"

/-- The filtering loop of `expand_reportinggroups` (`vo_reader.py` lines
27-43): walks the catalog in its iteration order, keeps only entries whose
name occurs in the VO's reference list, and reshapes each kept entry's
`Contacts` and `FQANs` fields. -/
def rgEntries (refs : List Value) : ODict → Except String (List (String × (Value × Value)))
  | [] => .ok []
  | (name, data) :: rest =>
    if containsStr refs name then
      match data with
      | .obj d =>
        match expandRGContacts d, expandRGFQANs d with
        | .ok c, .ok f =>
          match rgEntries refs rest with
          | .error e => .error e
          | .ok es => .ok ((name, (c, f)) :: es)
        | .error e, _ => .error e
        | .ok _, .error e => .error e
      | _ => .error "TypeError: reporting group entry is not a mapping"
    else rgEntries refs rest

/-- `expand_reportinggroups` (`vo_reader.py` lines 13-45): resolves a VO's
reporting-group name references against the catalog and delegates final
assembly to `expand_attr_list` with ordering `Name, FQANs, Contacts`.
Each retained entry's intermediate dict holds `Contacts` then `FQANs`, in
the insertion order of the source loop. -/
def expand_reportinggroups (refs : List Value) (catalog : ODict) : Except String Value :=
  match rgEntries refs catalog with
  | .error e => .error e
  | .ok es =>
    match expand_attr_list (es.map (fun e => (e.1, Value.obj [("Contacts", e.2.1), ("FQANs", e.2.2)]))) "Name" ["Name", "FQANs", "Contacts"] false with
    | .error e => .error e
    | .ok lst => .ok (.obj [("ReportingGroup", .list lst)])

/-- The mutation loop of `expand_oasis_managers` (`vo_reader.py` lines
55-59): each manager record's `DNs` field is rebound in place to
`\x7b"DN": old\x7d`, or to `None` when null/absent. -/
def mutateManagers : ODict → Except String ODict
  | [] => .ok []
  | (name, data) :: rest =>
    match data with
    | .obj d =>
      let d2 :=
        if is_null d "DNs" then odSet "DNs" Value.null d
        else match odGet d "DNs" with
          | some dns => odSet "DNs" (Value.obj [("DN", dns)]) d
          | none => d
      match mutateManagers rest with
      | .error e => .error e
      | .ok others => .ok ((name, Value.obj d2) :: others)
    | _ => .error "TypeError: manager entry is not a mapping"

/-- `expand_oasis_managers` (`vo_reader.py` lines 48-60).  The Python code
takes a shallow `managers.copy()` and then rebinds `"DNs"` inside each
manager record; those records are shared with the caller's mapping, so the
mutation is caller-visible.  The embedding returns both the function's
result and the caller-visible post-state of `managers`. -/
def expand_oasis_managers (managers : ODict) : Except String (Value × ODict) :=
  match mutateManagers managers with
  | .error e => .error e
  | .ok mutated =>
    match expand_attr_list mutated "Name" ["ContactID", "Name", "DNs"] true with
    | .error e => .error e
    | .ok lst => .ok (.obj [("Manager", .list lst)], mutated)

/-- `expand_fields_of_science` (`vo_reader.py` lines 63-77): `None` when
`PrimaryFields` is null/absent; otherwise `PrimaryFields` wrapped as
`\x7b"Field": ...\x7d` with `SecondaryFields` appended in the same shape only
when non-null (omitted entirely otherwise). -/
def expand_fields_of_science (fos : ODict) : Option Value :=
  if is_null fos "PrimaryFields" then none
  else
    let prim := (odGet fos "PrimaryFields").getD Value.null
    if is_null fos "SecondaryFields" then
      some (.obj [("PrimaryFields", .obj [("Field", prim)])])
    else
      some (.obj [("PrimaryFields", .obj [("Field", prim)]),
                  ("SecondaryFields", .obj [("Field", (odGet fos "SecondaryFields").getD Value.null)])])

/-- Lookup of `contact["ID"] in self.contacts_table` (`vo_reader.py` line
168).  The table is keyed by strings, and a Python string equals no
non-string value, so a non-string ID is never a member. -/
def tableLookup (table : ODict) (v : Value) : Option Value :=
  match v with
  | .str s => odGet table s
  | _ => none

/-- The per-contact body of `_expand_contacttypes` (`vo_reader.py` lines
166-173): always reads `contact["Name"]`; when `authorized`, reads
`contact["ID"]` and, if that ID is a table key, merges in `Email`
(a required table field), `Phone` (default `""`) and `SMSAddress`
(default `""`, from the table's `SMS` field). -/
def _expand_contact (table : ODict) (authorized : Bool) (contact : Value) : Except String Value :=
  match contact with
  | .obj c =>
    match odGet c "Name" with
    | none => .error "KeyError: Name"
    | some nm =>
      if authorized then
        match odGet c "ID" with
        | none => .error "KeyError: ID"
        | some cid =>
          match tableLookup table cid with
          | none => .ok (.obj [("Name", nm)])
          | some (.obj extra) =>
            match odGet extra "Email" with
            | none => .error "KeyError: Email"
            | some email =>
              .ok (.obj [("Name", nm), ("Email", email),
                ("Phone", (odGet extra "Phone").getD (Value.str "")),
                ("SMSAddress", (odGet extra "SMS").getD (Value.str ""))])
          | some _ => .error "TypeError: contacts table entry is not a mapping"
      else .ok (.obj [("Name", nm)])
  | _ => .error "TypeError: contact is not a mapping"

/-- The inner loop of `_expand_contacttypes` over one bucket's contact
list (`vo_reader.py` lines 164-173). -/
def contactList (table : ODict) (authorized : Bool) : List Value → Except String (List Value)
  | [] => .ok []
  | c :: cs =>
    match _expand_contact table authorized c with
    | .error e => .error e
    | .ok nc =>
      match contactList table authorized cs with
      | .error e => .error e
      | .ok rest => .ok (nc :: rest)

/-- The outer loop of `_expand_contacttypes` over the type buckets
(`vo_reader.py` lines 163-174). -/
def bucketList (table : ODict) (authorized : Bool) : ODict → Except String (List Value)
  | [] => .ok []
  | (type_, lv) :: rest =>
    match lv with
    | .list contacts =>
      match contactList table authorized contacts with
      | .error e => .error e
      | .ok cd =>
        match bucketList table authorized rest with
        | .error e => .error e
        | .ok others =>
          .ok (Value.obj [("Type", Value.str type_), ("Contacts", Value.obj [("Contact", Value.list cd)])] :: others)
    | _ => .error "TypeError: contact bucket is not a list"

/-- `VOData._expand_contacttypes` (`vo_reader.py` lines 161-175). -/
def _expand_contacttypes (table : ODict) (vo_contacts : ODict) (authorized : Bool) : Except String Value :=
  match bucketList table authorized vo_contacts with
  | .error e => .error e
  | .ok l => .ok (.obj [("ContactType", .list l)])

/-- Step of `_expand_vo` for `Contacts`/`ContactTypes` (`vo_reader.py`
lines 100-104): sets `ContactTypes` to the expansion (or `None` when
`Contacts` is null/absent), then pops the raw `Contacts` key. -/
def contactTypesStep (table : ODict) (authorized : Bool) (vo : ODict) : Except String ODict :=
  if is_null vo "Contacts" then .ok (odPop "Contacts" (odSet "ContactTypes" Value.null vo))
  else match odGet vo "Contacts" with
    | some (.obj c) =>
      match _expand_contacttypes table c authorized with
      | .error e => .error e
      | .ok ct => .ok (odPop "Contacts" (odSet "ContactTypes" ct vo))
    | _ => .error "TypeError: Contacts is not a mapping"

/-- The shared shape of the `ReportingGroups`, `FieldsOfScience` and
`ParentVO` steps of `_expand_vo`: when the field is null/absent it is set
to `None`, otherwise it is rebound to `f` of its value. -/
def nullableFieldStep (key : String) (f : Value → Except String Value) (vo : ODict) : Except String ODict :=
  if is_null vo key then .ok (odSet key Value.null vo)
  else match odGet vo key with
    | some v =>
      match f v with
      | .error e => .error e
      | .ok w => .ok (odSet key w vo)
    | none => .error "unreachable: non-null field is present"

/-- Step of `_expand_vo` for `ReportingGroups` (`vo_reader.py` lines
105-108). -/
def reportingGroupsStep (catalog : ODict) (vo : ODict) : Except String ODict :=
  nullableFieldStep "ReportingGroups"
    (fun v => match v with
      | .list refs => expand_reportinggroups refs catalog
      | _ => .error "TypeError: ReportingGroups is not a list") vo

/-- The `Managers` part of the OASIS step (`vo_reader.py` lines 114-117):
returns the value for the rebuilt block's `Managers` key together with the
caller-visible post-state of the source `Managers` mapping (`none` when no
mutation happened because the field was null/absent). -/
def oasisManagersPart (o : ODict) : Except String (Value × Option ODict) :=
  if is_null o "Managers" then .ok (Value.null, none)
  else match odGet o "Managers" with
    | some (.obj m) =>
      match expand_oasis_managers m with
      | .error e => .error e
      | .ok (res, mutated) => .ok (res, some mutated)
    | _ => .error "TypeError: Managers is not a mapping"

/-- Step of `_expand_vo` for `OASIS` (`vo_reader.py` lines 109-122):
rebuilds the block as `UseOASIS` (default `False`), `Managers`,
`OASISRepoURLs`.  Besides the updated working record it returns the new
caller-visible value of the original `OASIS` object when
`expand_oasis_managers` mutated the manager records nested inside it. -/
def oasisStep (vo : ODict) : Except String (ODict × Option ODict) :=
  if is_null vo "OASIS" then .ok (odSet "OASIS" Value.null vo, none)
  else match odGet vo "OASIS" with
    | some (.obj o) =>
      match oasisManagersPart o with
      | .error e => .error e
      | .ok (mgrs, mutEff) =>
        let useOasis := (odGet o "UseOASIS").getD (Value.bool false)
        let urls :=
          if is_null o "OASISRepoURLs" then Value.null
          else Value.obj [("URL", (odGet o "OASISRepoURLs").getD Value.null)]
        let oasis : ODict := [("UseOASIS", useOasis), ("Managers", mgrs), ("OASISRepoURLs", urls)]
        .ok (odSet "OASIS" (Value.obj oasis) vo,
             mutEff.map (fun m2 => odSet "Managers" (Value.obj m2) o))
    | _ => .error "AttributeError: OASIS is not a mapping"

/-- Step of `_expand_vo` for `FieldsOfScience` (`vo_reader.py` lines
123-126). -/
def fosStep (vo : ODict) : Except String ODict :=
  nullableFieldStep "FieldsOfScience"
    (fun v => match v with
      | .obj f => .ok ((expand_fields_of_science f).getD Value.null)
      | _ => .error "TypeError: FieldsOfScience is not a mapping") vo

/-- Step of `_expand_vo` for `ParentVO` (`vo_reader.py` lines 129-136):
an ordered sub-record of the `ID` and `Name` fields, each included only
when present in the source sub-record. -/
def parentVOStep (vo : ODict) : Except String ODict :=
  nullableFieldStep "ParentVO"
    (fun v => match v with
      | .obj p => .ok (.obj
          ((match odGet p "ID" with | some i => [("ID", i)] | none => []) ++
           (match odGet p "Name" with | some n => [("Name", n)] | none => [])))
      | _ => .error "TypeError: ParentVO is not a mapping") vo

/-- One iteration of the URL-defaulting loop of `_expand_vo`
(`vo_reader.py` lines 138-140): `vo[key] = None` when the key is absent. -/
def addIfMissing (k : String) (vo : ODict) : ODict :=
  if (odGet vo k).isSome then vo else vo ++ [(k, Value.null)]

/-- The URL-defaulting loop of `_expand_vo` (`vo_reader.py` lines
138-140), applied to the four URL keys in the source's order. -/
def urlsStep (vo : ODict) : ODict :=
  addIfMissing "SupportURL" (addIfMissing "PurposeURL"
    (addIfMissing "PrimaryURL" (addIfMissing "MembershipServicesURL" vo)))

/-- The fixed schema field list of `_expand_vo`'s final assembly loop
(`vo_reader.py` lines 152-155). -/
def voSchemaFields : List String :=
  ["ID", "Name", "LongName", "CertificateOnly", "PrimaryURL", "MembershipServicesURL",
   "PurposeURL", "SupportURL", "AppDescription", "Community", "FieldsOfScience",
   "ParentVO", "ReportingGroups", "Active", "Disable", "ContactTypes", "OASIS"]

/-- The final assembly loop of `_expand_vo` (`vo_reader.py` lines
151-157): copies, in the fixed order, each listed field that is present in
the working record. -/
def assembleFields (d : ODict) : List String → ODict
  | [] => []
  | k :: ks =>
    match odGet d k with
    | some v => (k, v) :: assembleFields d ks
    | none => assembleFields d ks

/-- `VOData._expand_vo` (`vo_reader.py` lines 97-159).  Returns the new
ordered record together with the caller-visible post-state of the input
mapping (the shallow `vo.copy()` protects the top level, but the manager
records nested under `OASIS.Managers` are mutated through shared
references by `expand_oasis_managers`). -/
def _expand_vo (table catalog : ODict) (authorized : Bool) (vo : ODict) : Except String (ODict × ODict) :=
  match contactTypesStep table authorized vo with
  | .error e => .error e
  | .ok v1 =>
  match reportingGroupsStep catalog v1 with
  | .error e => .error e
  | .ok v2 =>
  match oasisStep v2 with
  | .error e => .error e
  | .ok (v3, mutEff) =>
  match fosStep v3 with
  | .error e => .error e
  | .ok v4 =>
  match parentVOStep v4 with
  | .error e => .error e
  | .ok v5 =>
  let after := match mutEff with
    | none => vo
    | some oNew => odSet "OASIS" (Value.obj oNew) vo
  .ok (assembleFields (urlsStep v5) voSchemaFields, after)

/-- The state of a `VOData` object (`vo_reader.py` lines 80-87): the
contacts table (empty when no contacts file was given), the registered VO
records in registration order, and the reporting-groups catalog. -/
structure VOData where
  contacts_table : ODict
  reporting_groups : ODict
  vos : List ODict

/-- Modelled from the spec: `VOSUMMARY_SCHEMA_URL` from `app.common` (not
under `src/`), the fixed schema-location string of spec section 6; its
exact text is not visible in the repository, only that it is a fixed
constant reproduced verbatim. -/
def VOSUMMARY_SCHEMA_URL : String :=
  "https://my.opensciencegrid.org/schema/vosummary.xsd"

/-- The list comprehension of `get_tree` (`vo_reader.py` line 90): expands
every registered VO in registration order, threading the caller-visible
mutation of each VO record back into the stored list. -/
def expandVos (table catalog : ODict) (authorized : Bool) : List ODict → Except String (List Value × List ODict)
  | [] => .ok ([], [])
  | vo :: rest =>
    match _expand_vo table catalog authorized vo with
    | .error e => .error e
    | .ok (nv, voAfter) =>
      match expandVos table catalog authorized rest with
      | .error e => .error e
      | .ok (nvs, vosAfter) => .ok (Value.obj nv :: nvs, voAfter :: vosAfter)

/-- `VOData.get_tree` (`vo_reader.py` lines 89-95).  The `filters`
parameter is accepted but never read.  Returns the tree together with the
post-state of the `VOData` object. -/
def VOData.get_tree (st : VOData) (authorized : Bool) (filters : Option Value) : Except String (Value × VOData) :=
  match expandVos st.contacts_table st.reporting_groups authorized st.vos with
  | .error e => .error e
  | .ok (expanded, vosAfter) =>
    .ok (.obj [("VOSummary", .obj [
          ("@xmlns:xsi", .str "http://www.w3.org/2001/XMLSchema-instance"),
          ("@xsi:schemaLocation", .str VOSUMMARY_SCHEMA_URL),
          ("VO", .list expanded)])],
         ⟨st.contacts_table, st.reporting_groups, vosAfter⟩)

/-- The nine output fields that `_expand_vo` materializes for every VO
record: the four URL keys plus the five expanded optional blocks. -/
def materializedFields : List String :=
  ["PrimaryURL", "MembershipServicesURL", "PurposeURL", "SupportURL",
   "FieldsOfScience", "ParentVO", "ReportingGroups", "ContactTypes", "OASIS"]

/-- Source-field/output-field pairs for which `_expand_vo` emits an
explicit `None` whenever the source field is absent (the raw `Contacts`
key feeds the output `ContactTypes` key; the rest keep their names). -/
def nullSourcePairs : List (String × String) :=
  [("Contacts", "ContactTypes"), ("ReportingGroups", "ReportingGroups"),
   ("OASIS", "OASIS"), ("FieldsOfScience", "FieldsOfScience"), ("ParentVO", "ParentVO"),
   ("MembershipServicesURL", "MembershipServicesURL"), ("PrimaryURL", "PrimaryURL"),
   ("PurposeURL", "PurposeURL"), ("SupportURL", "SupportURL")]

/-- Whether an `Except` result is a success (no exception was raised). -/
def isOk {α : Type} : Except String α → Bool
  | .ok _ => true
  | .error _ => false

/-- A contact reference carries the keys `_expand_contacttypes`
unconditionally reads: it is a mapping with `Name`, and with `ID` as well
when `authorized` is true. -/
def contactHasKeys (authorized : Bool) (c : Value) : Bool :=
  match c with
  | .obj o => (odGet o "Name").isSome && (!authorized || (odGet o "ID").isSome)
  | _ => false

/-- Every contact reference in every bucket of a VO's `Contacts` mapping
carries the unconditionally read keys, and every bucket is a list. -/
def contactsHaveKeys (authorized : Bool) (vcs : ODict) : Bool :=
  vcs.all (fun p => match p.2 with
    | .list cs => cs.all (contactHasKeys authorized)
    | _ => false)

/-- Every contacts-table entry is a mapping carrying the `Email` field the
enrichment code reads unconditionally (spec section 4.6 calls it required
in the table). -/
def tableWF (table : ODict) : Bool :=
  table.all (fun p => match p.2 with
    | .obj e => (odGet e "Email").isSome
    | _ => false)

/-- A reporting-groups catalog entry that the resolver will retain (its
name occurs in the reference list) is well-formed: a mapping whose
non-null `Contacts` is a list and whose non-null `FQANs` is a list of
mappings each carrying `GroupName` and `Role`. -/
def rgEntryWF (refs : List Value) (p : String × Value) : Bool :=
  !containsStr refs p.1 ||
  (match p.2 with
   | .obj d =>
     (is_null d "Contacts" ||
       (match odGet d "Contacts" with | some (.list _) => true | _ => false)) &&
     (is_null d "FQANs" ||
       (match odGet d "FQANs" with
        | some (.list fs) => fs.all (fun f => match f with
            | .obj o => (odGet o "GroupName").isSome && (odGet o "Role").isSome
            | _ => false)
        | _ => false))
   | _ => false)

/-- The name field of one record emitted by `expand_reportinggroups`
(always the record's first field, per the `expand_attr_list` ordering). -/
def rgRecordName : Value → Option String
  | .obj (("Name", .str n) :: _) => some n
  | _ => none

/-- The list of group names of an `expand_reportinggroups` result, when
the call succeeded with the documented `\x7b"ReportingGroup": [...]\x7d` shape. -/
def rgResultNames : Except String Value → Option (List (Option String))
  | .ok (.obj [("ReportingGroup", .list l)]) => some (l.map rgRecordName)
  | _ => none

/-- Two successive `get_tree` calls on the same `VOData` object: the first
call's post-state is the second call's receiver, as in Python where the
mutation of the stored VO records persists on the object. -/
def getTreeTwice (st : VOData) (authorized : Bool) : Option (Value × Value) :=
  match VOData.get_tree st authorized none with
  | .error _ => none
  | .ok (t1, st1) =>
    match VOData.get_tree st1 authorized none with
    | .error _ => none
    | .ok (t2, _) => some (t1, t2)

/-! Basic dictionary lemmas. -/

theorem odGet_odSet_self (d : ODict) (k : String) (v : Value) :
    odGet (odSet k v d) k = some v := by
  induction d with
  | nil => simp [odSet, odGet]
  | cons p rest ih =>
    by_cases h : p.1 = k
    · simp [odSet, h, odGet]
    · simp [odSet, h, odGet, ih]

theorem odGet_odSet_ne (d : ODict) (k k' : String) (v : Value) (h : k' ≠ k) :
    odGet (odSet k v d) k' = odGet d k' := by
  induction d with
  | nil => simp [odSet, odGet, Ne.symm h]
  | cons p rest ih =>
    by_cases hp : p.1 = k
    · simp [odSet, hp, odGet, Ne.symm h]
    · by_cases hp' : p.1 = k'
      · simp [odSet, hp, odGet, hp', h, Ne.symm h]
      · simp [odSet, hp, odGet, hp', ih]

theorem odGet_odPop_ne (d : ODict) (k k' : String) (h : k' ≠ k) :
    odGet (odPop k d) k' = odGet d k' := by
  induction d with
  | nil => simp [odPop]
  | cons p rest ih =>
    by_cases hp : p.1 = k
    · have hp' : p.1 ≠ k' := by rw [hp]; exact Ne.symm h
      simp [odPop, hp, odGet, hp', ih, Ne.symm h]
    · by_cases hp' : p.1 = k'
      · simp [odPop, hp, odGet, hp', h, Ne.symm h]
      · simp [odPop, hp, odGet, hp', ih]

theorem odGet_append_left {d : ODict} {k : String} {v : Value} (e : ODict)
    (h : odGet d k = some v) : odGet (d ++ e) k = some v := by
  induction d with
  | nil => simp [odGet] at h
  | cons p rest ih =>
    by_cases hp : p.1 = k
    · simp [odGet, hp] at h ⊢; exact h
    · simp [odGet, hp] at h ⊢; exact ih h

theorem odGet_append_right {d : ODict} {k : String} (e : ODict)
    (h : odGet d k = none) : odGet (d ++ e) k = odGet e k := by
  induction d with
  | nil => simp
  | cons p rest ih =>
    by_cases hp : p.1 = k
    · simp [odGet, hp] at h
    · simp [odGet, hp] at h ⊢; exact ih h

theorem is_null_of_none {d : ODict} {k : String} (h : odGet d k = none) :
    is_null d k = true := by
  simp [is_null, h]

theorem odGet_isSome_of_not_null {d : ODict} {k : String}
    (h : is_null d k = false) : (odGet d k).isSome = true := by
  unfold is_null at h
  cases hg : odGet d k with
  | none => rw [hg] at h; simp at h
  | some v => simp

/-! Per-step lemmas about `_expand_vo`'s pipeline: each step rebinds
exactly its own key, leaves every other key untouched, always leaves its
key present, and leaves `None` there when the source field was absent. -/

theorem nullableFieldStep_ok {key : String} {f : Value → Except String Value} {vo v' : ODict}
    (h : nullableFieldStep key f vo = .ok v') :
    (∀ k, k ≠ key → odGet v' k = odGet vo k) ∧
    (odGet v' key).isSome = true ∧
    (odGet vo key = none → odGet v' key = some Value.null) := by
  unfold nullableFieldStep at h
  by_cases hn : is_null vo key = true
  · rw [if_pos hn] at h
    injection h with h
    subst h
    exact ⟨fun k hk => odGet_odSet_ne vo key k Value.null hk,
           by simp [odGet_odSet_self],
           fun _ => odGet_odSet_self vo key Value.null⟩
  · rw [if_neg hn] at h
    cases hg : odGet vo key with
    | none => exact absurd (is_null_of_none hg) hn
    | some v =>
      rw [hg] at h
      cases hf : f v with
      | error e => simp [hf] at h
      | ok w =>
        simp only [hf, Except.ok.injEq] at h
        subst h
        refine ⟨fun k hk => odGet_odSet_ne vo key k w hk, by simp [odGet_odSet_self], ?_⟩
        intro hnone
        simp at hnone

theorem contactTypesStep_ok {table : ODict} {authorized : Bool} {vo v' : ODict}
    (h : contactTypesStep table authorized vo = .ok v') :
    (∀ k, k ≠ "ContactTypes" → k ≠ "Contacts" → odGet v' k = odGet vo k) ∧
    (odGet v' "ContactTypes").isSome = true ∧
    (odGet vo "Contacts" = none → odGet v' "ContactTypes" = some Value.null) := by
  unfold contactTypesStep at h
  have hne : ("ContactTypes" : String) ≠ "Contacts" := by decide
  by_cases hn : is_null vo "Contacts" = true
  · rw [if_pos hn] at h
    injection h with h
    subst h
    refine ⟨fun k hk1 hk2 => ?_, ?_, fun _ => ?_⟩
    · rw [odGet_odPop_ne _ _ _ hk2, odGet_odSet_ne _ _ _ _ hk1]
    · rw [odGet_odPop_ne _ _ _ hne, odGet_odSet_self]; simp
    · rw [odGet_odPop_ne _ _ _ hne, odGet_odSet_self]
  · rw [if_neg hn] at h
    cases hg : odGet vo "Contacts" with
    | none => exact absurd (is_null_of_none hg) hn
    | some v =>
      rw [hg] at h
      cases v with
      | obj c =>
        cases hc : _expand_contacttypes table c authorized with
        | error e => simp [hc] at h
        | ok ct =>
          simp only [hc, Except.ok.injEq] at h
          subst h
          refine ⟨fun k hk1 hk2 => ?_, ?_, fun hnone => ?_⟩
          · rw [odGet_odPop_ne _ _ _ hk2, odGet_odSet_ne _ _ _ _ hk1]
          · rw [odGet_odPop_ne _ _ _ hne, odGet_odSet_self]; simp
          · simp at hnone
      | null => simp at h
      | bool b => simp at h
      | int n => simp at h
      | str s => simp at h
      | list xs => simp at h

theorem oasisStep_ok {vo v' : ODict} {mutEff : Option ODict}
    (h : oasisStep vo = .ok (v', mutEff)) :
    (∀ k, k ≠ "OASIS" → odGet v' k = odGet vo k) ∧
    (odGet v' "OASIS").isSome = true ∧
    (odGet vo "OASIS" = none → odGet v' "OASIS" = some Value.null) := by
  unfold oasisStep at h
  by_cases hn : is_null vo "OASIS" = true
  · rw [if_pos hn] at h
    injection h with h
    injection h with h1 h2
    subst h1
    exact ⟨fun k hk => odGet_odSet_ne vo "OASIS" k Value.null hk,
           by simp [odGet_odSet_self],
           fun _ => odGet_odSet_self vo "OASIS" Value.null⟩
  · rw [if_neg hn] at h
    cases hg : odGet vo "OASIS" with
    | none => exact absurd (is_null_of_none hg) hn
    | some v =>
      rw [hg] at h
      cases v with
      | obj o =>
        cases hm : oasisManagersPart o with
        | error e => simp [hm] at h
        | ok pr =>
          cases pr with
          | mk mgrs me =>
            simp only [hm, Except.ok.injEq, Prod.mk.injEq] at h
            obtain ⟨h1, h2⟩ := h
            subst h1
            refine ⟨fun k hk => odGet_odSet_ne vo "OASIS" k _ hk, by simp [odGet_odSet_self], fun hnone => ?_⟩
            simp at hnone
      | null => simp at h
      | bool b => simp at h
      | int n => simp at h
      | str s => simp at h
      | list xs => simp at h

theorem odGet_addIfMissing_ne (vo : ODict) (k k' : String) (h : k' ≠ k) :
    odGet (addIfMissing k vo) k' = odGet vo k' := by
  unfold addIfMissing
  by_cases hs : (odGet vo k).isSome
  · rw [if_pos hs]
  · rw [if_neg hs]
    cases hg : odGet vo k' with
    | none => rw [odGet_append_right _ hg]; simp [odGet, Ne.symm h]
    | some v => rw [odGet_append_left _ hg]

theorem odGet_addIfMissing_self (vo : ODict) (k : String) :
    (odGet (addIfMissing k vo) k).isSome = true ∧
    (odGet vo k = none → odGet (addIfMissing k vo) k = some Value.null) := by
  unfold addIfMissing
  by_cases hs : (odGet vo k).isSome
  · rw [if_pos hs]
    exact ⟨hs, fun hnone => by rw [hnone] at hs; simp at hs⟩
  · rw [if_neg hs]
    cases hg : odGet vo k with
    | none =>
      have : odGet (vo ++ [(k, Value.null)]) k = some Value.null := by
        rw [odGet_append_right _ hg]; simp [odGet]
      exact ⟨by rw [this]; simp, fun _ => this⟩
    | some v => rw [hg] at hs; simp at hs

theorem odGet_urlsStep_ne (vo : ODict) (k : String)
    (h1 : k ≠ "MembershipServicesURL") (h2 : k ≠ "PrimaryURL")
    (h3 : k ≠ "PurposeURL") (h4 : k ≠ "SupportURL") :
    odGet (urlsStep vo) k = odGet vo k := by
  unfold urlsStep
  rw [odGet_addIfMissing_ne _ _ _ h4, odGet_addIfMissing_ne _ _ _ h3,
      odGet_addIfMissing_ne _ _ _ h2, odGet_addIfMissing_ne _ _ _ h1]

theorem odGet_urlsStep_url (vo : ODict) (k : String)
    (hmem : k = "MembershipServicesURL" ∨ k = "PrimaryURL" ∨ k = "PurposeURL" ∨ k = "SupportURL") :
    (odGet (urlsStep vo) k).isSome = true ∧
    (odGet vo k = none → odGet (urlsStep vo) k = some Value.null) := by
  unfold urlsStep
  rcases hmem with rfl | rfl | rfl | rfl
  · constructor
    · rw [odGet_addIfMissing_ne _ _ _ (by decide), odGet_addIfMissing_ne _ _ _ (by decide),
          odGet_addIfMissing_ne _ _ _ (by decide)]
      exact (odGet_addIfMissing_self vo _).1
    · intro hnone
      rw [odGet_addIfMissing_ne _ _ _ (by decide), odGet_addIfMissing_ne _ _ _ (by decide),
          odGet_addIfMissing_ne _ _ _ (by decide)]
      exact (odGet_addIfMissing_self vo _).2 hnone
  · constructor
    · rw [odGet_addIfMissing_ne _ _ _ (by decide), odGet_addIfMissing_ne _ _ _ (by decide)]
      exact (odGet_addIfMissing_self _ _).1
    · intro hnone
      rw [odGet_addIfMissing_ne _ _ _ (by decide), odGet_addIfMissing_ne _ _ _ (by decide)]
      exact (odGet_addIfMissing_self _ _).2
        (by rw [odGet_addIfMissing_ne _ _ _ (by decide)]; exact hnone)
  · constructor
    · rw [odGet_addIfMissing_ne _ _ _ (by decide)]
      exact (odGet_addIfMissing_self _ _).1
    · intro hnone
      rw [odGet_addIfMissing_ne _ _ _ (by decide)]
      exact (odGet_addIfMissing_self _ _).2
        (by rw [odGet_addIfMissing_ne _ _ _ (by decide), odGet_addIfMissing_ne _ _ _ (by decide)]; exact hnone)
  · constructor
    · exact (odGet_addIfMissing_self _ _).1
    · intro hnone
      exact (odGet_addIfMissing_self _ _).2
        (by rw [odGet_addIfMissing_ne _ _ _ (by decide), odGet_addIfMissing_ne _ _ _ (by decide),
                odGet_addIfMissing_ne _ _ _ (by decide)]; exact hnone)

/-! Lemmas about the final assembly loop. -/

theorem assembleFields_keys (d : ODict) (ks : List String) :
    (assembleFields d ks).map Prod.fst = ks.filter (fun k => (odGet d k).isSome) := by
  induction ks with
  | nil => simp [assembleFields]
  | cons k ks ih =>
    cases hg : odGet d k with
    | none => simp [assembleFields, hg, ih, List.filter]
    | some v => simp [assembleFields, hg, ih, List.filter]

theorem odGet_assembleFields_none {d : ODict} {k : String} (ks : List String)
    (h : odGet d k = none) : odGet (assembleFields d ks) k = none := by
  induction ks with
  | nil => simp [assembleFields, odGet]
  | cons k' ks ih =>
    cases hg : odGet d k' with
    | none => simpa [assembleFields, hg] using ih
    | some v =>
      have hne : k' ≠ k := fun he => by rw [he, h] at hg; exact Option.noConfusion hg
      simp [assembleFields, hg, odGet, hne, ih]

theorem odGet_assembleFields_mem {d : ODict} {k : String} {ks : List String}
    (hmem : k ∈ ks) : odGet (assembleFields d ks) k = odGet d k := by
  induction ks with
  | nil => simp at hmem
  | cons k' ks ih =>
    by_cases he : k' = k
    · subst he
      cases hg : odGet d k' with
      | none => simp [assembleFields, hg, odGet_assembleFields_none ks hg]
      | some v => simp [assembleFields, hg, odGet]
    · have hmem' : k ∈ ks := by
        cases hmem with
        | head => exact absurd rfl he
        | tail _ h => exact h
      cases hg : odGet d k' with
      | none => simpa [assembleFields, hg] using ih hmem'
      | some v => simp [assembleFields, hg, odGet, he, ih hmem']

theorem filterCongr {l : List String} {p q : String → Bool}
    (h : ∀ x ∈ l, p x = q x) : l.filter p = l.filter q := by
  induction l with
  | nil => rfl
  | cons x xs ih =>
    have hx := h x (by simp)
    have ihh := ih (fun y hy => h y (by simp [hy]))
    simp only [List.filter, hx, ihh]

/-- The central characterization of a successful `_expand_vo` run: the
output's key list is the fixed schema list restricted to the materialized
fields plus the input's own schema fields; every materialized field is
present; and every materialized field whose source field is absent from
the input carries an explicit `None`. -/
theorem expand_vo_ok_spec {table catalog : ODict} {authorized : Bool} {vo out after : ODict}
    (h : _expand_vo table catalog authorized vo = .ok (out, after)) :
    out.map Prod.fst = voSchemaFields.filter
      (fun k => materializedFields.contains k || (odGet vo k).isSome) ∧
    (∀ k ∈ materializedFields, (odGet out k).isSome = true) ∧
    (∀ p ∈ nullSourcePairs, odGet vo p.1 = none → odGet out p.2 = some Value.null) := by
  unfold _expand_vo at h
  cases h1 : contactTypesStep table authorized vo with
  | error e => simp [h1] at h
  | ok v1 =>
  simp only [h1] at h
  cases h2 : reportingGroupsStep catalog v1 with
  | error e => simp [h2] at h
  | ok v2 =>
  simp only [h2] at h
  cases h3 : oasisStep v2 with
  | error e => simp [h3] at h
  | ok pr3 =>
  cases pr3 with
  | mk v3 mutEff =>
  simp only [h3] at h
  cases h4 : fosStep v3 with
  | error e => simp [h4] at h
  | ok v4 =>
  simp only [h4] at h
  cases h5 : parentVOStep v4 with
  | error e => simp [h5] at h
  | ok v5 =>
  simp only [h5, Except.ok.injEq, Prod.mk.injEq] at h
  obtain ⟨hout, hafter⟩ := h
  subst hout
  unfold reportingGroupsStep at h2
  unfold fosStep at h4
  unfold parentVOStep at h5
  have s1 := contactTypesStep_ok h1
  have s2 := nullableFieldStep_ok h2
  have s3 := oasisStep_ok h3
  have s4 := nullableFieldStep_ok h4
  have s5 := nullableFieldStep_ok h5
  have P45 : ∀ k, k ≠ "ParentVO" → odGet v5 k = odGet v4 k := fun k d => s5.1 k d
  have P35 : ∀ k, k ≠ "FieldsOfScience" → k ≠ "ParentVO" → odGet v5 k = odGet v3 k :=
    fun k c d => by rw [s5.1 k d, s4.1 k c]
  have P25 : ∀ k, k ≠ "OASIS" → k ≠ "FieldsOfScience" → k ≠ "ParentVO" → odGet v5 k = odGet v2 k :=
    fun k b c d => by rw [P35 k c d, s3.1 k b]
  have P15 : ∀ k, k ≠ "ReportingGroups" → k ≠ "OASIS" → k ≠ "FieldsOfScience" → k ≠ "ParentVO" →
      odGet v5 k = odGet v1 k :=
    fun k a b c d => by rw [P25 k b c d, s2.1 k a]
  have P05 : ∀ k, k ≠ "ContactTypes" → k ≠ "Contacts" → k ≠ "ReportingGroups" → k ≠ "OASIS" →
      k ≠ "FieldsOfScience" → k ≠ "ParentVO" → odGet v5 k = odGet vo k :=
    fun k a a' b c d e => by rw [P15 k b c d e, s1.1 k a a']
  have mats : ∀ k, k ∈ materializedFields → (odGet (urlsStep v5) k).isSome = true := by
    intro k hk
    simp only [materializedFields, List.mem_cons, List.not_mem_nil, or_false] at hk
    rcases hk with rfl | rfl | rfl | rfl | rfl | rfl | rfl | rfl | rfl
    · exact (odGet_urlsStep_url v5 _ (by simp)).1
    · exact (odGet_urlsStep_url v5 _ (by simp)).1
    · exact (odGet_urlsStep_url v5 _ (by simp)).1
    · exact (odGet_urlsStep_url v5 _ (by simp)).1
    · rw [odGet_urlsStep_ne _ _ (by decide) (by decide) (by decide) (by decide),
          P45 _ (by decide)]
      exact s4.2.1
    · rw [odGet_urlsStep_ne _ _ (by decide) (by decide) (by decide) (by decide)]
      exact s5.2.1
    · rw [odGet_urlsStep_ne _ _ (by decide) (by decide) (by decide) (by decide),
          P25 _ (by decide) (by decide) (by decide)]
      exact s2.2.1
    · rw [odGet_urlsStep_ne _ _ (by decide) (by decide) (by decide) (by decide),
          P15 _ (by decide) (by decide) (by decide) (by decide)]
      exact s1.2.1
    · rw [odGet_urlsStep_ne _ _ (by decide) (by decide) (by decide) (by decide),
          P35 _ (by decide) (by decide)]
      exact s3.2.1
  have nulls : ∀ p, p ∈ nullSourcePairs → odGet vo p.1 = none →
      odGet (urlsStep v5) p.2 = some Value.null := by
    intro p hp
    simp only [nullSourcePairs, List.mem_cons, List.not_mem_nil, or_false] at hp
    rcases hp with rfl | rfl | rfl | rfl | rfl | rfl | rfl | rfl | rfl <;> intro hnone
    · rw [odGet_urlsStep_ne _ _ (by decide) (by decide) (by decide) (by decide),
          P15 _ (by decide) (by decide) (by decide) (by decide)]
      exact s1.2.2 hnone
    · rw [odGet_urlsStep_ne _ _ (by decide) (by decide) (by decide) (by decide),
          P25 _ (by decide) (by decide) (by decide)]
      exact s2.2.2 (by rw [s1.1 _ (by decide) (by decide)]; exact hnone)
    · rw [odGet_urlsStep_ne _ _ (by decide) (by decide) (by decide) (by decide),
          P35 _ (by decide) (by decide)]
      exact s3.2.2 (by rw [s2.1 _ (by decide), s1.1 _ (by decide) (by decide)]; exact hnone)
    · rw [odGet_urlsStep_ne _ _ (by decide) (by decide) (by decide) (by decide),
          P45 _ (by decide)]
      exact s4.2.2 (by
        rw [s3.1 _ (by decide), s2.1 _ (by decide), s1.1 _ (by decide) (by decide)]
        exact hnone)
    · rw [odGet_urlsStep_ne _ _ (by decide) (by decide) (by decide) (by decide)]
      exact s5.2.2 (by
        rw [s4.1 _ (by decide), s3.1 _ (by decide), s2.1 _ (by decide),
            s1.1 _ (by decide) (by decide)]
        exact hnone)
    · exact (odGet_urlsStep_url v5 _ (by simp)).2
        (by rw [P05 _ (by decide) (by decide) (by decide) (by decide) (by decide) (by decide)]; exact hnone)
    · exact (odGet_urlsStep_url v5 _ (by simp)).2
        (by rw [P05 _ (by decide) (by decide) (by decide) (by decide) (by decide) (by decide)]; exact hnone)
    · exact (odGet_urlsStep_url v5 _ (by simp)).2
        (by rw [P05 _ (by decide) (by decide) (by decide) (by decide) (by decide) (by decide)]; exact hnone)
    · exact (odGet_urlsStep_url v5 _ (by simp)).2
        (by rw [P05 _ (by decide) (by decide) (by decide) (by decide) (by decide) (by decide)]; exact hnone)
  have hsub : ∀ k, k ∈ materializedFields → k ∈ voSchemaFields := by decide
  have hsub2 : ∀ p, p ∈ nullSourcePairs → p.2 ∈ voSchemaFields := by decide
  refine ⟨?_, ?_, ?_⟩
  · rw [assembleFields_keys]
    refine filterCongr ?_
    intro k hk
    simp only [voSchemaFields, List.mem_cons, List.not_mem_nil, or_false] at hk
    rcases hk with rfl | rfl | rfl | rfl | rfl | rfl | rfl | rfl | rfl | rfl | rfl | rfl | rfl | rfl | rfl | rfl | rfl
    · rw [show materializedFields.contains "ID" = false from by decide,
          odGet_urlsStep_ne _ _ (by decide) (by decide) (by decide) (by decide),
          P05 _ (by decide) (by decide) (by decide) (by decide) (by decide) (by decide)]
      simp
    · rw [show materializedFields.contains "Name" = false from by decide,
          odGet_urlsStep_ne _ _ (by decide) (by decide) (by decide) (by decide),
          P05 _ (by decide) (by decide) (by decide) (by decide) (by decide) (by decide)]
      simp
    · rw [show materializedFields.contains "LongName" = false from by decide,
          odGet_urlsStep_ne _ _ (by decide) (by decide) (by decide) (by decide),
          P05 _ (by decide) (by decide) (by decide) (by decide) (by decide) (by decide)]
      simp
    · rw [show materializedFields.contains "CertificateOnly" = false from by decide,
          odGet_urlsStep_ne _ _ (by decide) (by decide) (by decide) (by decide),
          P05 _ (by decide) (by decide) (by decide) (by decide) (by decide) (by decide)]
      simp
    · rw [mats _ (by decide), show materializedFields.contains "PrimaryURL" = true from by decide]
      simp
    · rw [mats _ (by decide), show materializedFields.contains "MembershipServicesURL" = true from by decide]
      simp
    · rw [mats _ (by decide), show materializedFields.contains "PurposeURL" = true from by decide]
      simp
    · rw [mats _ (by decide), show materializedFields.contains "SupportURL" = true from by decide]
      simp
    · rw [show materializedFields.contains "AppDescription" = false from by decide,
          odGet_urlsStep_ne _ _ (by decide) (by decide) (by decide) (by decide),
          P05 _ (by decide) (by decide) (by decide) (by decide) (by decide) (by decide)]
      simp
    · rw [show materializedFields.contains "Community" = false from by decide,
          odGet_urlsStep_ne _ _ (by decide) (by decide) (by decide) (by decide),
          P05 _ (by decide) (by decide) (by decide) (by decide) (by decide) (by decide)]
      simp
    · rw [mats _ (by decide), show materializedFields.contains "FieldsOfScience" = true from by decide]
      simp
    · rw [mats _ (by decide), show materializedFields.contains "ParentVO" = true from by decide]
      simp
    · rw [mats _ (by decide), show materializedFields.contains "ReportingGroups" = true from by decide]
      simp
    · rw [show materializedFields.contains "Active" = false from by decide,
          odGet_urlsStep_ne _ _ (by decide) (by decide) (by decide) (by decide),
          P05 _ (by decide) (by decide) (by decide) (by decide) (by decide) (by decide)]
      simp
    · rw [show materializedFields.contains "Disable" = false from by decide,
          odGet_urlsStep_ne _ _ (by decide) (by decide) (by decide) (by decide),
          P05 _ (by decide) (by decide) (by decide) (by decide) (by decide) (by decide)]
      simp
    · rw [mats _ (by decide), show materializedFields.contains "ContactTypes" = true from by decide]
      simp
    · rw [mats _ (by decide), show materializedFields.contains "OASIS" = true from by decide]
      simp
  · intro k hk
    rw [odGet_assembleFields_mem (hsub k hk)]
    exact mats k hk
  · intro p hp hnone
    rw [odGet_assembleFields_mem (hsub2 p hp)]
    exact nulls p hp hnone

/-! Lemmas about `expand_reportinggroups`. -/

theorem expandRGContacts_ok {d : ODict}
    (hb : (is_null d "Contacts" ||
      (match odGet d "Contacts" with | some (.list _) => true | _ => false)) = true) :
    ∃ c, expandRGContacts d = .ok c := by
  unfold expandRGContacts
  by_cases hn : is_null d "Contacts" = true
  · rw [if_pos hn]; exact ⟨_, rfl⟩
  · rw [if_neg hn]
    rw [Bool.not_eq_true] at hn
    rw [hn, Bool.false_or] at hb
    cases hg : odGet d "Contacts" with
    | none => rw [hg] at hb; simp at hb
    | some v =>
      rw [hg] at hb
      cases v with
      | list xs => exact ⟨_, rfl⟩
      | null => simp at hb
      | bool b => simp at hb
      | int n => simp at hb
      | str s => simp at hb
      | obj fs => simp at hb

theorem fqanRecords_ok {fs : List Value}
    (hb : fs.all (fun f => match f with
      | .obj o => (odGet o "GroupName").isSome && (odGet o "Role").isSome
      | _ => false) = true) :
    ∃ rs, fqanRecords fs = .ok rs := by
  induction fs with
  | nil => exact ⟨[], rfl⟩
  | cons f fs ih =>
    simp only [List.all_cons, Bool.and_eq_true] at hb
    obtain ⟨hf, hrest⟩ := hb
    obtain ⟨rs, hrs⟩ := ih hrest
    cases f with
    | obj o =>
      simp only [Bool.and_eq_true, Option.isSome_iff_exists] at hf
      obtain ⟨⟨g, hg⟩, ⟨r, hr⟩⟩ := hf
      refine ⟨Value.obj [("GroupName", g), ("Role", r)] :: rs, ?_⟩
      unfold fqanRecords
      simp [hg, hr, hrs]
    | null => simp at hf
    | bool b => simp at hf
    | int n => simp at hf
    | str s => simp at hf
    | list xs => simp at hf

theorem expandRGFQANs_ok {d : ODict}
    (hb : (is_null d "FQANs" ||
      (match odGet d "FQANs" with
       | some (.list fs) => fs.all (fun f => match f with
           | .obj o => (odGet o "GroupName").isSome && (odGet o "Role").isSome
           | _ => false)
       | _ => false)) = true) :
    ∃ f, expandRGFQANs d = .ok f := by
  unfold expandRGFQANs
  by_cases hn : is_null d "FQANs" = true
  · rw [if_pos hn]; exact ⟨_, rfl⟩
  · rw [if_neg hn]
    rw [Bool.not_eq_true] at hn
    rw [hn, Bool.false_or] at hb
    cases hg : odGet d "FQANs" with
    | none => rw [hg] at hb; simp at hb
    | some v =>
      rw [hg] at hb
      cases v with
      | list fs =>
        obtain ⟨rs, hrs⟩ := fqanRecords_ok hb
        simp only [hrs]
        exact ⟨_, rfl⟩
      | null => simp at hb
      | bool b => simp at hb
      | int n => simp at hb
      | str s => simp at hb
      | obj o => simp at hb

theorem rgEntries_ok {refs : List Value} :
    ∀ {catalog : ODict}, catalog.all (rgEntryWF refs) = true →
    ∃ es, rgEntries refs catalog = .ok es ∧
      es.map Prod.fst = (catalog.map Prod.fst).filter (fun n => containsStr refs n) := by
  intro catalog
  induction catalog with
  | nil => exact fun _ => ⟨[], rfl, rfl⟩
  | cons p rest ih =>
    intro hwf
    obtain ⟨name, data⟩ := p
    simp only [List.all_cons, Bool.and_eq_true] at hwf
    obtain ⟨hp, hrest⟩ := hwf
    obtain ⟨es, hes, hnames⟩ := ih hrest
    cases hc : containsStr refs name with
    | false =>
      refine ⟨es, ?_, ?_⟩
      · unfold rgEntries
        rw [hc]
        simp [hes]
      · simp [List.filter, hc, hnames]
    | true =>
      unfold rgEntryWF at hp
      rw [hc] at hp
      simp only [Bool.not_true, Bool.false_or] at hp
      cases data with
      | obj d =>
        simp only [Bool.and_eq_true] at hp
        obtain ⟨hco, hfq⟩ := hp
        obtain ⟨c, hcok⟩ := expandRGContacts_ok hco
        obtain ⟨f, hfok⟩ := expandRGFQANs_ok hfq
        refine ⟨(name, (c, f)) :: es, ?_, ?_⟩
        · unfold rgEntries
          rw [hc]
          simp [hcok, hfok, hes]
        · simp [List.filter, hc, hnames]
      | null => simp at hp
      | bool b => simp at hp
      | int n => simp at hp
      | str s => simp at hp
      | list xs => simp at hp

theorem expand_attr_list_rg (es : List (String × (Value × Value))) :
    expand_attr_list (es.map (fun e => (e.1, Value.obj [("Contacts", e.2.1), ("FQANs", e.2.2)])))
      "Name" ["Name", "FQANs", "Contacts"] false =
    .ok (es.map (fun e => Value.obj [("Name", .str e.1), ("FQANs", e.2.2), ("Contacts", e.2.1)])) := by
  induction es with
  | nil => rfl
  | cons e es ih =>
    obtain ⟨name, c, f⟩ := e
    have hpick : pickFields (odSet "Name" (Value.str name) [("Contacts", c), ("FQANs", f)])
        ["Name", "FQANs", "Contacts"] false name =
        .ok [("Name", Value.str name), ("FQANs", f), ("Contacts", c)] := rfl
    simp only [List.map_cons]
    unfold expand_attr_list
    simp [hpick, ih]

/-! Lemmas about `_expand_contacttypes`. -/

theorem tableWF_lookup {s : String} {v : Value} :
    ∀ {table : ODict}, tableWF table = true → odGet table s = some v →
    ∃ e, v = .obj e ∧ (odGet e "Email").isSome = true := by
  intro table
  induction table with
  | nil => intro _ hg; simp [odGet] at hg
  | cons p rest ih =>
    intro hwf hg
    simp only [tableWF, List.all_cons, Bool.and_eq_true] at hwf
    obtain ⟨hp, hrest⟩ := hwf
    by_cases he : p.1 = s
    · simp only [odGet, he, if_pos] at hg
      injection hg with hg
      subst hg
      cases hv : p.2 with
      | obj e => rw [hv] at hp; exact ⟨e, rfl, hp⟩
      | null => rw [hv] at hp; simp at hp
      | bool b => rw [hv] at hp; simp at hp
      | int n => rw [hv] at hp; simp at hp
      | str t => rw [hv] at hp; simp at hp
      | list xs => rw [hv] at hp; simp at hp
    · simp only [odGet, he, if_neg, if_false] at hg
      exact ih (by simpa [tableWF] using hrest) hg

theorem expand_contact_ok {table : ODict} {authorized : Bool} {c : Value}
    (hc : contactHasKeys authorized c = true) (hwf : tableWF table = true) :
    ∃ v, _expand_contact table authorized c = .ok v := by
  cases c with
  | obj o =>
    simp only [contactHasKeys, Bool.and_eq_true] at hc
    obtain ⟨hn, hrest⟩ := hc
    rw [Option.isSome_iff_exists] at hn
    obtain ⟨nm, hnm⟩ := hn
    unfold _expand_contact
    cases authorized with
    | false => simp [hnm]
    | true =>
      simp only [Bool.not_true, Bool.false_or, Option.isSome_iff_exists] at hrest
      obtain ⟨cid, hid⟩ := hrest
      cases htl : tableLookup table cid with
      | none => simp [hnm, hid, htl]
      | some v' =>
        cases cid with
        | str sid =>
          obtain ⟨e, rfl, hes⟩ := tableWF_lookup hwf (by simpa [tableLookup] using htl)
          rw [Option.isSome_iff_exists] at hes
          obtain ⟨email, hemail⟩ := hes
          simp [hnm, hid, htl, hemail]
        | null => simp [tableLookup] at htl
        | bool b => simp [tableLookup] at htl
        | int n => simp [tableLookup] at htl
        | list xs => simp [tableLookup] at htl
        | obj fs => simp [tableLookup] at htl
  | null => simp [contactHasKeys] at hc
  | bool b => simp [contactHasKeys] at hc
  | int n => simp [contactHasKeys] at hc
  | str s => simp [contactHasKeys] at hc
  | list xs => simp [contactHasKeys] at hc

theorem expand_contact_keys {table : ODict} {authorized : Bool} {c v : Value}
    (h : _expand_contact table authorized c = .ok v) : contactHasKeys authorized c = true := by
  cases c with
  | obj o =>
    unfold _expand_contact at h
    cases hg : odGet o "Name" with
    | none => simp [hg] at h
    | some nm =>
      simp only [hg] at h
      cases authorized with
      | false => simp [contactHasKeys, hg]
      | true =>
        cases hid : odGet o "ID" with
        | none => simp [hid] at h
        | some cid => simp [contactHasKeys, hg, hid]
  | null => simp [_expand_contact] at h
  | bool b => simp [_expand_contact] at h
  | int n => simp [_expand_contact] at h
  | str s => simp [_expand_contact] at h
  | list xs => simp [_expand_contact] at h

theorem contactList_ok {table : ODict} {authorized : Bool}
    (hwf : tableWF table = true) :
    ∀ {cs : List Value}, cs.all (contactHasKeys authorized) = true →
    ∃ l, contactList table authorized cs = .ok l := by
  intro cs
  induction cs with
  | nil => exact fun _ => ⟨[], rfl⟩
  | cons c cs ih =>
    intro hall
    simp only [List.all_cons, Bool.and_eq_true] at hall
    obtain ⟨hc, hrest⟩ := hall
    obtain ⟨v, hv⟩ := expand_contact_ok hc hwf
    obtain ⟨l, hl⟩ := ih hrest
    refine ⟨v :: l, ?_⟩
    unfold contactList
    rw [hv, hl]

theorem contactList_keys {table : ODict} {authorized : Bool} :
    ∀ {cs : List Value} {l : List Value}, contactList table authorized cs = .ok l →
    cs.all (contactHasKeys authorized) = true := by
  intro cs
  induction cs with
  | nil => intro l _; rfl
  | cons c cs ih =>
    intro l h
    unfold contactList at h
    cases hc : _expand_contact table authorized c with
    | error e => rw [hc] at h; simp at h
    | ok nc =>
      rw [hc] at h
      cases hl : contactList table authorized cs with
      | error e => rw [hl] at h; simp at h
      | ok rest =>
        simp only [List.all_cons, Bool.and_eq_true]
        exact ⟨expand_contact_keys hc, ih hl⟩

theorem bucketList_ok {table : ODict} {authorized : Bool}
    (hwf : tableWF table = true) :
    ∀ {vcs : ODict}, contactsHaveKeys authorized vcs = true →
    ∃ l, bucketList table authorized vcs = .ok l := by
  intro vcs
  induction vcs with
  | nil => exact fun _ => ⟨[], rfl⟩
  | cons p rest ih =>
    intro hall
    obtain ⟨type_, lv⟩ := p
    simp only [contactsHaveKeys, List.all_cons, Bool.and_eq_true] at hall
    obtain ⟨hb, hrest⟩ := hall
    cases lv with
    | list contacts =>
      obtain ⟨cd, hcd⟩ := contactList_ok hwf hb
      obtain ⟨others, hothers⟩ := ih (by simpa [contactsHaveKeys] using hrest)
      refine ⟨Value.obj [("Type", Value.str type_), ("Contacts", Value.obj [("Contact", Value.list cd)])] :: others, ?_⟩
      unfold bucketList
      simp [hcd, hothers]
    | null => simp at hb
    | bool b => simp at hb
    | int n => simp at hb
    | str s => simp at hb
    | obj fs => simp at hb

theorem bucketList_keys {table : ODict} {authorized : Bool} :
    ∀ {vcs : ODict} {l : List Value}, bucketList table authorized vcs = .ok l →
    contactsHaveKeys authorized vcs = true := by
  intro vcs
  induction vcs with
  | nil => intro l _; rfl
  | cons p rest ih =>
    intro l h
    obtain ⟨type_, lv⟩ := p
    unfold bucketList at h
    cases lv with
    | list contacts =>
      cases hcd : contactList table authorized contacts with
      | error e => simp [hcd] at h
      | ok cd =>
        simp only [hcd] at h
        cases ho : bucketList table authorized rest with
        | error e => simp [ho] at h
        | ok others =>
          simp only [contactsHaveKeys, List.all_cons, Bool.and_eq_true]
          exact ⟨contactList_keys hcd, by simpa [contactsHaveKeys] using ih ho⟩
    | null => simp at h
    | bool b => simp at h
    | int n => simp at h
    | str s => simp at h
    | obj fs => simp at h

/-! The claims. -/

/-- C1, counterexample: for the empty input VO record, `_expand_vo`
succeeds but its output's key list is the nine materialized fields only,
not the full seventeen-field schema set — schema fields absent from the
input (such as `ID`) are omitted, not emitted as null. -/
theorem c1_exact_schema_counterexample :
    (_expand_vo [] [] true []).map (fun r => r.1.map Prod.fst) =
      .ok ["PrimaryURL", "MembershipServicesURL", "PurposeURL", "SupportURL",
           "FieldsOfScience", "ParentVO", "ReportingGroups", "ContactTypes", "OASIS"] ∧
    (["PrimaryURL", "MembershipServicesURL", "PurposeURL", "SupportURL",
      "FieldsOfScience", "ParentVO", "ReportingGroups", "ContactTypes", "OASIS"] : List String)
      ≠ voSchemaFields :=
  ⟨by rfl, by decide⟩

/-- C1, amended: for every input VO record on which `_expand_vo` succeeds,
the output's key list is exactly the fixed schema list restricted to the
fields that are either materialized (the four URLs, `FieldsOfScience`,
`ParentVO`, `ReportingGroups`, `ContactTypes`, `OASIS`) or present in the
input; the order is the schema order, and non-schema keys never appear. -/
theorem c1_output_keys_amended (table catalog : ODict) (authorized : Bool) (vo out after : ODict)
    (h : _expand_vo table catalog authorized vo = .ok (out, after)) :
    out.map Prod.fst = voSchemaFields.filter
      (fun k => materializedFields.contains k || (odGet vo k).isSome) :=
  (expand_vo_ok_spec h).1

/-- Witness for `c1_output_keys_amended` at the concrete one-field record
`\x7b"ID": "1"\x7d`. -/
theorem c1_output_keys_amended_witness :
    List.map Prod.fst
      [("ID", Value.str "1"), ("PrimaryURL", Value.null), ("MembershipServicesURL", Value.null),
       ("PurposeURL", Value.null), ("SupportURL", Value.null), ("FieldsOfScience", Value.null),
       ("ParentVO", Value.null), ("ReportingGroups", Value.null), ("ContactTypes", Value.null),
       ("OASIS", Value.null)] =
    voSchemaFields.filter
      (fun k => materializedFields.contains k || (odGet [("ID", Value.str "1")] k).isSome) :=
  c1_output_keys_amended [] [] true [("ID", Value.str "1")] _ [("ID", Value.str "1")] (by rfl)

/-- C2: code bug.  `_expand_vo` does not leave the caller's mapping
unchanged: on a VO whose OASIS block has a manager with a `DNs` list, the
shallow `managers.copy()` in `expand_oasis_managers` lets the `DNs`
rebinding reach the caller's nested manager record, which afterwards holds
`\x7b"DN": ["x"]\x7d` instead of `["x"]`. -/
theorem c2_nested_mutation_bug :
    (_expand_vo [] [] true
      [("OASIS", Value.obj [("Managers", Value.obj [("a", Value.obj [("DNs", Value.list [Value.str "x"])])])])]).map
      (fun r => r.2) =
    .ok [("OASIS", Value.obj [("Managers", Value.obj [("a", Value.obj [("DNs", Value.obj [("DN", Value.list [Value.str "x"])])])])])] ∧
    ([("OASIS", Value.obj [("Managers", Value.obj [("a", Value.obj [("DNs", Value.obj [("DN", Value.list [Value.str "x"])])])])])] : ODict) ≠
    [("OASIS", Value.obj [("Managers", Value.obj [("a", Value.obj [("DNs", Value.list [Value.str "x"])])])])] :=
  ⟨by rfl, by simp⟩

/-- C3: code bug.  Two successive `get_tree` calls on the same `VOData`
do not return equal trees when a VO has an OASIS manager with a `DNs`
list: the first call mutates the stored record's `DNs` to
`\x7b"DN": ["x"]\x7d`, so the second call wraps it again and emits
`\x7b"DN": \x7b"DN": ["x"]\x7d\x7d`. -/
theorem c3_get_tree_second_call_differs :
    getTreeTwice ⟨[], [],
      [[("OASIS", Value.obj [("Managers", Value.obj [("a", Value.obj [("DNs", Value.list [Value.str "x"])])])])]]⟩ true =
    some
      (Value.obj [("VOSummary", Value.obj [
          ("@xmlns:xsi", Value.str "http://www.w3.org/2001/XMLSchema-instance"),
          ("@xsi:schemaLocation", Value.str VOSUMMARY_SCHEMA_URL),
          ("VO", Value.list [Value.obj [
            ("PrimaryURL", Value.null), ("MembershipServicesURL", Value.null),
            ("PurposeURL", Value.null), ("SupportURL", Value.null),
            ("FieldsOfScience", Value.null), ("ParentVO", Value.null),
            ("ReportingGroups", Value.null), ("ContactTypes", Value.null),
            ("OASIS", Value.obj [("UseOASIS", Value.bool false),
              ("Managers", Value.obj [("Manager", Value.list [Value.obj [
                ("Name", Value.str "a"),
                ("DNs", Value.obj [("DN", Value.list [Value.str "x"])])]])]),
              ("OASISRepoURLs", Value.null)])]])])],
       Value.obj [("VOSummary", Value.obj [
          ("@xmlns:xsi", Value.str "http://www.w3.org/2001/XMLSchema-instance"),
          ("@xsi:schemaLocation", Value.str VOSUMMARY_SCHEMA_URL),
          ("VO", Value.list [Value.obj [
            ("PrimaryURL", Value.null), ("MembershipServicesURL", Value.null),
            ("PurposeURL", Value.null), ("SupportURL", Value.null),
            ("FieldsOfScience", Value.null), ("ParentVO", Value.null),
            ("ReportingGroups", Value.null), ("ContactTypes", Value.null),
            ("OASIS", Value.obj [("UseOASIS", Value.bool false),
              ("Managers", Value.obj [("Manager", Value.list [Value.obj [
                ("Name", Value.str "a"),
                ("DNs", Value.obj [("DN", Value.obj [("DN", Value.list [Value.str "x"])])])]])]),
              ("OASISRepoURLs", Value.null)])]])])]) ∧
    Value.obj [("VOSummary", Value.obj [
          ("@xmlns:xsi", Value.str "http://www.w3.org/2001/XMLSchema-instance"),
          ("@xsi:schemaLocation", Value.str VOSUMMARY_SCHEMA_URL),
          ("VO", Value.list [Value.obj [
            ("PrimaryURL", Value.null), ("MembershipServicesURL", Value.null),
            ("PurposeURL", Value.null), ("SupportURL", Value.null),
            ("FieldsOfScience", Value.null), ("ParentVO", Value.null),
            ("ReportingGroups", Value.null), ("ContactTypes", Value.null),
            ("OASIS", Value.obj [("UseOASIS", Value.bool false),
              ("Managers", Value.obj [("Manager", Value.list [Value.obj [
                ("Name", Value.str "a"),
                ("DNs", Value.obj [("DN", Value.list [Value.str "x"])])]])]),
              ("OASISRepoURLs", Value.null)])]])])] ≠
    Value.obj [("VOSummary", Value.obj [
          ("@xmlns:xsi", Value.str "http://www.w3.org/2001/XMLSchema-instance"),
          ("@xsi:schemaLocation", Value.str VOSUMMARY_SCHEMA_URL),
          ("VO", Value.list [Value.obj [
            ("PrimaryURL", Value.null), ("MembershipServicesURL", Value.null),
            ("PurposeURL", Value.null), ("SupportURL", Value.null),
            ("FieldsOfScience", Value.null), ("ParentVO", Value.null),
            ("ReportingGroups", Value.null), ("ContactTypes", Value.null),
            ("OASIS", Value.obj [("UseOASIS", Value.bool false),
              ("Managers", Value.obj [("Manager", Value.list [Value.obj [
                ("Name", Value.str "a"),
                ("DNs", Value.obj [("DN", Value.obj [("DN", Value.list [Value.str "x"])])])]])]),
              ("OASISRepoURLs", Value.null)])]])])] :=
  ⟨by rfl, by simp⟩

/-- C4: for every reference list and every catalog whose retained entries
are well-formed, `expand_reportinggroups` succeeds and emits exactly the
catalog entries whose name occurs in the reference list, in catalog
iteration order (referenced names absent from the catalog are dropped
without error), and a reference list resolving nothing yields
`\x7b"ReportingGroup": []\x7d`. -/
theorem c4_reportinggroup_resolution (refs : List Value) (catalog : ODict)
    (hwf : catalog.all (rgEntryWF refs) = true) :
    rgResultNames (expand_reportinggroups refs catalog) =
      some (((catalog.map Prod.fst).filter (fun n => containsStr refs n)).map some) ∧
    ((catalog.map Prod.fst).all (fun n => !containsStr refs n) = true →
      expand_reportinggroups refs catalog = .ok (.obj [("ReportingGroup", .list [])])) := by
  obtain ⟨es, hes, hnames⟩ := rgEntries_ok hwf
  constructor
  · unfold expand_reportinggroups
    simp only [hes, expand_attr_list_rg]
    simp only [rgResultNames, List.map_map]
    rw [← hnames]
    simp [rgRecordName, Function.comp]
  · intro hall
    have hfilt : (catalog.map Prod.fst).filter (fun n => containsStr refs n) = [] := by
      rw [List.filter_eq_nil_iff]
      intro a ha
      have := (List.all_eq_true.mp hall) a ha
      simpa using this
    have hes0 : es = [] := by
      have hmap : es.map Prod.fst = [] := by rw [hnames, hfilt]
      exact List.map_eq_nil_iff.mp hmap
    subst hes0
    unfold expand_reportinggroups
    simp only [hes, List.map_nil]
    rfl

/-- Witness for `c4_reportinggroup_resolution`: `GroupA` resolves,
`GroupB` is referenced but absent from the catalog and is silently
dropped, and the unreferenced `GroupC` is filtered out. -/
theorem c4_reportinggroup_resolution_witness :
    rgResultNames (expand_reportinggroups [Value.str "GroupA", Value.str "GroupB"]
      [("GroupA", Value.obj [("FQANs", Value.list [Value.obj [("GroupName", Value.str "g"), ("Role", Value.str "r")]])]),
       ("GroupC", Value.obj [])]) = some [some "GroupA"] :=
  ((c4_reportinggroup_resolution [Value.str "GroupA", Value.str "GroupB"]
      [("GroupA", Value.obj [("FQANs", Value.list [Value.obj [("GroupName", Value.str "g"), ("Role", Value.str "r")]])]),
       ("GroupC", Value.obj [])] (by decide)).1).trans (by decide)

/-- C5, counterexample: with `authorized` true and a contact reference
that has a `Name` but no `ID`, `_expand_contacttypes` raises a key-lookup
error instead of emitting `\x7b"Name": name\x7d`. -/
theorem c5_name_only_counterexample :
    _expand_contacttypes [("c1", Value.obj [("Email", Value.str "e")])]
      [("security", Value.list [Value.obj [("Name", Value.str "n")]])] true =
    .error "KeyError: ID" := by rfl

/-- C5, amended: a contact is emitted as exactly `\x7b"Name": name\x7d` when
`authorized` is false, or when `authorized` is true and the contact's
(present) `ID` is not a key of the contacts table; when `authorized` is
true and the contact has no `ID` key, the expansion raises instead. -/
theorem c5_enrichment_gate_amended (table : ODict) (c : ODict) (nm : Value)
    (hname : odGet c "Name" = some nm) :
    (_expand_contact table false (.obj c) = .ok (.obj [("Name", nm)])) ∧
    (∀ cid, odGet c "ID" = some cid → tableLookup table cid = none →
      _expand_contact table true (.obj c) = .ok (.obj [("Name", nm)])) ∧
    (odGet c "ID" = none → _expand_contact table true (.obj c) = .error "KeyError: ID") := by
  refine ⟨?_, ?_, ?_⟩
  · unfold _expand_contact
    simp [hname]
  · intro cid hid htl
    unfold _expand_contact
    simp [hname, hid, htl]
  · intro hid
    unfold _expand_contact
    simp [hname, hid]

/-- Witness for `c5_enrichment_gate_amended`: an authorized lookup whose
ID is absent from the table yields the bare name record. -/
theorem c5_enrichment_gate_amended_witness :
    _expand_contact [("c1", Value.obj [("Email", Value.str "e")])] true
      (.obj [("Name", Value.str "n"), ("ID", Value.str "zz")]) =
    .ok (.obj [("Name", Value.str "n")]) :=
  (c5_enrichment_gate_amended [("c1", Value.obj [("Email", Value.str "e")])]
    [("Name", Value.str "n"), ("ID", Value.str "zz")] (Value.str "n") rfl).2.1
    (Value.str "zz") rfl rfl

/-- C6: every successful `_expand_vo` output carries the nine
materialized keys (the four URLs, `FieldsOfScience`, `ParentVO`,
`ReportingGroups`, `ContactTypes`, `OASIS`), and each of them is exactly
`None` when the corresponding input field (`Contacts` for
`ContactTypes`) is absent. -/
theorem c6_materialized_fields_null (table catalog : ODict) (authorized : Bool) (vo out after : ODict)
    (h : _expand_vo table catalog authorized vo = .ok (out, after)) :
    (∀ k ∈ materializedFields, (odGet out k).isSome = true) ∧
    (∀ p ∈ nullSourcePairs, odGet vo p.1 = none → odGet out p.2 = some Value.null) :=
  ⟨(expand_vo_ok_spec h).2.1, (expand_vo_ok_spec h).2.2⟩

/-- Witness for `c6_materialized_fields_null` at the empty VO record:
`OASIS` is present and `ContactTypes` is exactly null. -/
theorem c6_materialized_fields_null_witness :
    (odGet [("PrimaryURL", Value.null), ("MembershipServicesURL", Value.null),
            ("PurposeURL", Value.null), ("SupportURL", Value.null), ("FieldsOfScience", Value.null),
            ("ParentVO", Value.null), ("ReportingGroups", Value.null), ("ContactTypes", Value.null),
            ("OASIS", Value.null)] "OASIS").isSome = true ∧
    odGet [("PrimaryURL", Value.null), ("MembershipServicesURL", Value.null),
           ("PurposeURL", Value.null), ("SupportURL", Value.null), ("FieldsOfScience", Value.null),
           ("ParentVO", Value.null), ("ReportingGroups", Value.null), ("ContactTypes", Value.null),
           ("OASIS", Value.null)] "ContactTypes" = some Value.null :=
  ⟨(c6_materialized_fields_null [] [] true [] _ [] (by rfl)).1 "OASIS" (by decide),
   (c6_materialized_fields_null [] [] true [] _ [] (by rfl)).2
     ("Contacts", "ContactTypes") (by decide) rfl⟩

/-- C7: `expand_fields_of_science` returns `None` exactly when
`PrimaryFields` is absent or falsy; otherwise it wraps `PrimaryFields` and
omits the `SecondaryFields` key entirely (single-key record) when
`SecondaryFields` is null/absent, including it only when non-null. -/
theorem c7_fields_of_science_shape (fos : ODict) :
    (odGet fos "PrimaryFields" = none → expand_fields_of_science fos = none) ∧
    (∀ p, odGet fos "PrimaryFields" = some p → isFalsy p = true →
      expand_fields_of_science fos = none) ∧
    (∀ p, odGet fos "PrimaryFields" = some p → isFalsy p = false →
      is_null fos "SecondaryFields" = true →
      expand_fields_of_science fos = some (.obj [("PrimaryFields", .obj [("Field", p)])])) ∧
    (∀ p s, odGet fos "PrimaryFields" = some p → isFalsy p = false →
      odGet fos "SecondaryFields" = some s → isFalsy s = false →
      expand_fields_of_science fos = some (.obj [("PrimaryFields", .obj [("Field", p)]),
        ("SecondaryFields", .obj [("Field", s)])])) := by
  refine ⟨?_, ?_, ?_, ?_⟩
  · intro hnone
    unfold expand_fields_of_science
    rw [if_pos (is_null_of_none hnone)]
  · intro p hp hf
    unfold expand_fields_of_science
    rw [if_pos (by simp [is_null, hp, hf])]
  · intro p hp hf hsn
    unfold expand_fields_of_science
    rw [if_neg (by simp [is_null, hp, hf])]
    simp [hp, hsn]
  · intro p s hp hf hs hsf
    unfold expand_fields_of_science
    rw [if_neg (by simp [is_null, hp, hf])]
    simp [is_null, hp, hs, hsf]

/-- Witness for `c7_fields_of_science_shape`: both field groups present
and non-empty. -/
theorem c7_fields_of_science_shape_witness :
    expand_fields_of_science
      [("PrimaryFields", Value.list [Value.str "P"]), ("SecondaryFields", Value.list [Value.str "S"])] =
    some (.obj [("PrimaryFields", .obj [("Field", Value.list [Value.str "P"])]),
      ("SecondaryFields", .obj [("Field", Value.list [Value.str "S"])])]) :=
  (c7_fields_of_science_shape
    [("PrimaryFields", Value.list [Value.str "P"]), ("SecondaryFields", Value.list [Value.str "S"])]).2.2.2
    (Value.list [Value.str "P"]) (Value.list [Value.str "S"]) rfl rfl rfl rfl

/-- C8: with `authorized` true and a contact whose `ID` resolves in the
contacts table to an entry with an `Email`, the emitted contact carries
that `Email` verbatim, the entry's `Phone` or `""` when absent, and the
entry's `SMS` as `SMSAddress` or `""` when absent. -/
theorem c8_enrichment_values (table : ODict) (c extra : ODict) (nm cid email : Value)
    (hname : odGet c "Name" = some nm) (hid : odGet c "ID" = some cid)
    (htbl : tableLookup table cid = some (.obj extra))
    (hemail : odGet extra "Email" = some email) :
    _expand_contact table true (.obj c) =
      .ok (.obj [("Name", nm), ("Email", email),
        ("Phone", (odGet extra "Phone").getD (Value.str "")),
        ("SMSAddress", (odGet extra "SMS").getD (Value.str ""))]) := by
  unfold _expand_contact
  simp [hname, hid, htbl, hemail]

/-- Witness for `c8_enrichment_values`: the table entry has `Email` and
`SMS` but no `Phone`, so `Phone` defaults to the empty string. -/
theorem c8_enrichment_values_witness :
    _expand_contact [("c1", Value.obj [("Email", Value.str "e@x"), ("SMS", Value.str "5551234")])] true
      (.obj [("Name", Value.str "n"), ("ID", Value.str "c1")]) =
    .ok (.obj [("Name", Value.str "n"), ("Email", Value.str "e@x"),
      ("Phone", Value.str ""), ("SMSAddress", Value.str "5551234")]) :=
  c8_enrichment_values [("c1", Value.obj [("Email", Value.str "e@x"), ("SMS", Value.str "5551234")])]
    [("Name", Value.str "n"), ("ID", Value.str "c1")]
    [("Email", Value.str "e@x"), ("SMS", Value.str "5551234")]
    (Value.str "n") (Value.str "c1") (Value.str "e@x") rfl rfl rfl rfl

/-- C9: `get_tree` never reads its `filters` parameter: any two filter
values produce identical results (tree and post-state alike) on any
`VOData` and any `authorized` flag. -/
theorem c9_filters_never_read (st : VOData) (authorized : Bool) (f1 f2 : Option Value) :
    VOData.get_tree st authorized f1 = VOData.get_tree st authorized f2 := rfl

/-- C10, counterexample: every contact has `Name` and `ID` (the claim's
precondition), yet the expansion raises, because the resolved table entry
lacks the unconditionally read `Email` field. -/
theorem c10_no_failure_counterexample :
    contactsHaveKeys true
      [("t", Value.list [Value.obj [("Name", Value.str "n"), ("ID", Value.str "c1")]])] = true ∧
    isOk (_expand_contacttypes [("c1", Value.obj [])]
      [("t", Value.list [Value.obj [("Name", Value.str "n"), ("ID", Value.str "c1")]])] true) = false :=
  ⟨by decide, by rfl⟩

/-- C10, amended: when every contact carries `Name` (and `ID` when
`authorized`) and every contacts-table entry is a mapping with `Email`,
`_expand_contacttypes` raises nothing; conversely, success implies every
contact carried the unconditionally read keys — a contact missing `Name`,
or missing `ID` while authorized, makes the whole expansion raise. -/
theorem c10_totality_amended (table : ODict) (authorized : Bool) (vcs : ODict) :
    (contactsHaveKeys authorized vcs = true → tableWF table = true →
      isOk (_expand_contacttypes table vcs authorized) = true) ∧
    (isOk (_expand_contacttypes table vcs authorized) = true →
      contactsHaveKeys authorized vcs = true) := by
  constructor
  · intro hkeys hwf
    obtain ⟨l, hl⟩ := bucketList_ok hwf hkeys
    unfold _expand_contacttypes
    rw [hl]
    rfl
  · intro hok
    unfold _expand_contacttypes at hok
    cases hb : bucketList table authorized vcs with
    | error e => rw [hb] at hok; simp [isOk] at hok
    | ok l => exact bucketList_keys hb

/-- Witness for `c10_totality_amended`: a well-formed table and contact
set expand without raising. -/
theorem c10_totality_amended_witness :
    isOk (_expand_contacttypes [("c1", Value.obj [("Email", Value.str "e")])]
      [("t", Value.list [Value.obj [("Name", Value.str "n"), ("ID", Value.str "c1")]])] true) = true :=
  (c10_totality_amended [("c1", Value.obj [("Email", Value.str "e")])] true
    [("t", Value.list [Value.obj [("Name", Value.str "n"), ("ID", Value.str "c1")]])]).1
    (by decide) (by decide)
